import Mathlib

/-!
Verification of the nsflow live-session fan-out / log-broadcast layer.

Shallow embedding of:
- the bounded log replay buffer (`log_event` in
  `nsflow/backend/api/v1/fast_websocket.py` and
  `nsflow/backend/utils/ns_grpc_service.py`),
- the WebSocket log broadcast loop (`broadcast_log`),
- the log-subscriber attach paths (`websocket_logs`, SSE `stream_logs`),
- the broadcaster registry (`websocket_logs_registry.get_logs_manager`),
- the streaming-chat demultiplexer
  (`ns_grpc_service_api.stream_chat_to_websocket`,
  `formulate_chat_request`, `get_chat_context`).

Python dictionaries with a fixed key set are embedded as structures with
`Option` fields (`none` = key absent); Python exceptions are embedded as
explicit error results; the heap identity of Python objects is embedded
as an allocation counter carried by the registry state.
-/

namespace Nsflow

/-- A log entry dict `{"timestamp": ..., "message": ..., "source": ...}`
as built by `log_event`. -/
structure LogEntry where
  timestamp : String
  message : String
  source : String
deriving DecidableEq, Repr

/-- `LOG_BUFFER_SIZE = 100` from `fast_websocket.py` /
`NsGrpcServiceApi.LOG_BUFFER_SIZE`. -/
def LOG_BUFFER_SIZE : Nat := 100

/-- The buffer update performed by `log_event`:
`log_buffer.append(log_entry); if len(log_buffer) > LOG_BUFFER_SIZE:
log_buffer.pop(0)`. -/
def log_event_buffer (buf : List LogEntry) (e : LogEntry) : List LogEntry :=
  let b := buf ++ [e]
  if LOG_BUFFER_SIZE < b.length then b.drop 1 else b

/-- Publishing a whole sequence of events through `log_event`, starting
from a given buffer. -/
def publish_all (buf : List LogEntry) (es : List LogEntry) : List LogEntry :=
  es.foldl log_event_buffer buf

theorem log_event_buffer_lt {buf : List LogEntry} (e : LogEntry)
    (h : buf.length < LOG_BUFFER_SIZE) :
    log_event_buffer buf e = buf ++ [e] := by
  show (if LOG_BUFFER_SIZE < (buf ++ [e]).length then (buf ++ [e]).drop 1 else buf ++ [e])
      = buf ++ [e]
  rw [if_neg]
  simp only [List.length_append, List.length_singleton]
  omega

theorem log_event_buffer_full {buf : List LogEntry} (e : LogEntry)
    (h : LOG_BUFFER_SIZE ≤ buf.length) :
    log_event_buffer buf e = (buf ++ [e]).drop 1 := by
  show (if LOG_BUFFER_SIZE < (buf ++ [e]).length then (buf ++ [e]).drop 1 else buf ++ [e])
      = (buf ++ [e]).drop 1
  rw [if_pos]
  simp only [List.length_append, List.length_singleton]
  omega

theorem publish_all_eq (es : List LogEntry) :
    ∀ buf : List LogEntry, buf.length ≤ LOG_BUFFER_SIZE →
      publish_all buf es =
        (buf ++ es).drop (buf.length + es.length - LOG_BUFFER_SIZE) := by
  induction es with
  | nil =>
    intro buf hb
    simp [publish_all, Nat.sub_eq_zero_of_le hb]
  | cons e es ih =>
    intro buf hb
    have hstep : publish_all buf (e :: es) = publish_all (log_event_buffer buf e) es := rfl
    rcases Nat.lt_or_ge buf.length LOG_BUFFER_SIZE with hlt | hge
    · -- no eviction on this step
      have hbe : log_event_buffer buf e = buf ++ [e] := log_event_buffer_lt e hlt
      have hlen : (buf ++ [e]).length ≤ LOG_BUFFER_SIZE := by
        simp only [List.length_append, List.length_singleton]
        omega
      rw [hstep, hbe, ih _ hlen]
      simp only [List.append_assoc, List.singleton_append]
      congr 1
      simp only [List.length_append, List.length_cons, List.length_nil]
      omega
    · -- buffer full: one entry is evicted
      have hbe : log_event_buffer buf e = (buf ++ [e]).drop 1 :=
        log_event_buffer_full e hge
      have hlen : ((buf ++ [e]).drop 1).length ≤ LOG_BUFFER_SIZE := by
        simp only [List.length_drop, List.length_append, List.length_singleton]
        omega
      rw [hstep, hbe, ih _ hlen]
      have h1 : (1 : Nat) ≤ (buf ++ [e]).length := by
        simp only [List.length_append, List.length_singleton]
        omega
      have hdrop : ((buf ++ [e]).drop 1) ++ es = ((buf ++ [e]) ++ es).drop 1 :=
        (List.drop_append_of_le_length h1).symm
      rw [hdrop, List.drop_drop]
      simp only [List.append_assoc, List.singleton_append]
      congr 1
      simp only [List.length_drop, List.length_append, List.length_cons,
        List.length_nil]
      omega

/-- **C2.** After any sequence of publishes starting from an empty buffer,
the replay buffer is exactly the suffix of the published sequence formed by
the last `LOG_BUFFER_SIZE = 100` entries, in publish order (FIFO eviction),
and in particular never holds more than 100 entries. -/
theorem log_buffer_bounded_fifo (es : List LogEntry) :
    publish_all [] es = es.drop (es.length - LOG_BUFFER_SIZE) ∧
    (publish_all [] es).length ≤ LOG_BUFFER_SIZE := by
  have h := publish_all_eq es [] (by simp [LOG_BUFFER_SIZE])
  simp only [List.nil_append, List.length_nil, Nat.zero_add] at h
  refine ⟨h, ?_⟩
  rw [h]
  simp only [List.length_drop]
  omega

/-! ## Subscriber registry (`websocket_logs_registry.py`) -/

/-- A `WebsocketLogsManager` instance as held by the registry.  Python
object identity is embedded as an allocation number `instance_id`
assigned at construction time. -/
structure WebsocketLogsManager where
  agent_name : String
  instance_id : Nat
deriving DecidableEq, Repr

/-- The module state of `websocket_logs_registry`: the `_logs_managers`
dict plus the allocation counter that models object identity. -/
structure LogsRegistry where
  entries : List (String × WebsocketLogsManager)
  next_id : Nat
deriving DecidableEq, Repr

/-- `get_logs_manager`: `if agent_name not in _logs_managers:
_logs_managers[agent_name] = WebsocketLogsManager(agent_name); return
_logs_managers[agent_name]`. -/
def get_logs_manager (reg : LogsRegistry) (agent_name : String) :
    WebsocketLogsManager × LogsRegistry :=
  match reg.entries.lookup agent_name with
  | some m => (m, reg)
  | none =>
    let m : WebsocketLogsManager := ⟨agent_name, reg.next_id⟩
    (m, ⟨reg.entries ++ [(agent_name, m)], reg.next_id + 1⟩)

theorem lookup_append_of_none {α : Type} [BEq α] {β : Type}
    {l₁ : List (α × β)} (l₂ : List (α × β)) {k : α}
    (h : l₁.lookup k = none) : (l₁ ++ l₂).lookup k = l₂.lookup k := by
  induction l₁ with
  | nil => rfl
  | cons p l₁ ih =>
    rcases p with ⟨a, b⟩
    by_cases hk : k == a
    · simp [List.lookup, hk] at h
    · simp only [List.lookup, List.cons_append, hk] at h ⊢
      exact ih h

theorem lookup_append_of_some {α : Type} [BEq α] {β : Type}
    {l₁ : List (α × β)} (l₂ : List (α × β)) {k : α} {v : β}
    (h : l₁.lookup k = some v) : (l₁ ++ l₂).lookup k = some v := by
  induction l₁ with
  | nil => simp [List.lookup] at h
  | cons p l₁ ih =>
    rcases p with ⟨a, b⟩
    by_cases hk : k == a
    · simp only [List.lookup, hk] at h ⊢
      exact h
    · simp only [List.lookup, List.cons_append, hk] at h ⊢
      exact ih h

/-- **C6.** The registry's get-or-create is a per-key singleton: after any
call the returned instance is the one stored under the key; a call on a
key that is already stored returns the stored instance and leaves the
registry unchanged; and a call on any other key preserves the stored
mapping.  Together these give at most one broadcaster instance per scope
key across any sequence of calls. -/
theorem get_logs_manager_singleton (reg : LogsRegistry) (k k' : String) :
    ((get_logs_manager reg k).2.entries.lookup k = some (get_logs_manager reg k).1) ∧
    (∀ m : WebsocketLogsManager, reg.entries.lookup k = some m →
      get_logs_manager reg k = (m, reg)) ∧
    (∀ m : WebsocketLogsManager, reg.entries.lookup k = some m →
      (get_logs_manager reg k').2.entries.lookup k = some m) := by
  refine ⟨?_, ?_, ?_⟩
  · unfold get_logs_manager
    cases hl : reg.entries.lookup k with
    | some m => simp [hl]
    | none =>
      simp only [hl]
      rw [lookup_append_of_none _ hl]
      simp [List.lookup]
  · intro m hm
    unfold get_logs_manager
    rw [hm]
  · intro m hm
    unfold get_logs_manager
    cases hl : reg.entries.lookup k' with
    | some m' => simp [hm]
    | none =>
      simp only
      exact lookup_append_of_some _ hm

/-- Closed witness for the hypotheses of `get_logs_manager_singleton`:
one concrete registry where the key is stored. -/
theorem get_logs_manager_singleton_witness :
    ((⟨[("demo", ⟨"demo", 0⟩)], 1⟩ : LogsRegistry).entries.lookup "demo"
        = some ⟨"demo", 0⟩) ∧
    (get_logs_manager ⟨[("demo", ⟨"demo", 0⟩)], 1⟩ "demo"
        = (⟨"demo", 0⟩, ⟨[("demo", ⟨"demo", 0⟩)], 1⟩)) ∧
    ((get_logs_manager ⟨[("demo", ⟨"demo", 0⟩)], 1⟩ "global").2.entries.lookup "demo"
        = some ⟨"demo", 0⟩) := by
  have h := get_logs_manager_singleton ⟨[("demo", ⟨"demo", 0⟩)], 1⟩ "demo" "global"
  exact ⟨by decide, h.2.1 ⟨"demo", 0⟩ (by decide), h.2.2 ⟨"demo", 0⟩ (by decide)⟩

/-! ## Chat request formulation (`ns_grpc_service_api.formulate_chat_request`) -/

/-- `ChatMessageType` values used by the request/response payloads. -/
inductive MsgType where
  | HUMAN
  | AI
  | AGENT
  | AGENT_TOOL_RESULT
  | OTHER
deriving DecidableEq, Repr

/-- A generic string-keyed dictionary payload (`sly_data`,
`chat_context`, `chat_filter` are all opaque dicts to this layer). -/
abbrev StrDict := List (String × String)

/-- The `user_message` sub-dict of a chat request. -/
structure UserMessage where
  type : MsgType
  text : String
deriving DecidableEq, Repr

/-- The dictionary returned by `formulate_chat_request`, with `Option`
fields for the keys that are only conditionally present. -/
structure ChatRequestDict where
  user_message : UserMessage
  chat_context : Option StrDict
  sly_data : Option StrDict
  chat_filter : Option StrDict
deriving DecidableEq, Repr

/-- `NsGrpcServiceApi.formulate_chat_request`.  The `chat_context`
argument is tested with Python truthiness (`bool(chat_context)`: absent
or empty means no key), `sly_data` and `chat_filter` with
`x is not None and len(x.keys()) > 0`. -/
def formulate_chat_request (user_input : String)
    (sly_data : Option StrDict := none)
    (chat_context : Option StrDict := none)
    (chat_filter : Option StrDict := none) : ChatRequestDict :=
  { user_message := ⟨MsgType.HUMAN, user_input⟩
    chat_context :=
      match chat_context with
      | some d => if d.isEmpty then none else some d
      | none => none
    sly_data :=
      match sly_data with
      | some d => if 0 < d.length then some d else none
      | none => none
    chat_filter :=
      match chat_filter with
      | some d => if 0 < d.length then some d else none
      | none => none }

/-- **C10.** `formulate_chat_request` always produces the HUMAN user
message with the given text; the `chat_context` key is present (with the
given value) iff the argument is a non-empty dict, `sly_data` iff it is
not `None` and has at least one key, `chat_filter` likewise; the result
has no other fields. -/
theorem formulate_chat_request_keys (user_input : String)
    (sly_data chat_context chat_filter : Option StrDict) :
    let r := formulate_chat_request user_input sly_data chat_context chat_filter
    r.user_message = ⟨MsgType.HUMAN, user_input⟩ ∧
    (r.chat_context = if ∃ d, chat_context = some d ∧ d ≠ [] then chat_context else none) ∧
    (r.sly_data = if ∃ d, sly_data = some d ∧ d ≠ [] then sly_data else none) ∧
    (r.chat_filter = if ∃ d, chat_filter = some d ∧ d ≠ [] then chat_filter else none) ∧
    r = ⟨r.user_message, r.chat_context, r.sly_data, r.chat_filter⟩ := by
  refine ⟨rfl, ?_, ?_, ?_, rfl⟩
  · cases chat_context with
    | none => simp [formulate_chat_request]
    | some d =>
      cases d with
      | nil => simp [formulate_chat_request]
      | cons p d => simp [formulate_chat_request]
  · cases sly_data with
    | none => simp [formulate_chat_request]
    | some d =>
      cases d with
      | nil => simp [formulate_chat_request]
      | cons p d => simp [formulate_chat_request]
  · cases chat_filter with
    | none => simp [formulate_chat_request]
    | some d =>
      cases d with
      | nil => simp [formulate_chat_request]
      | cons p d => simp [formulate_chat_request]

/-! ## Log broadcast (`broadcast_log` in `fast_websocket.py` /
`ns_grpc_service.py`) -/

/-- A WebSocket sink in `active_log_connections`.  `closed = true` means
`send_text` raises `WebSocketDisconnect` for this sink. -/
structure Sink where
  id : Nat
  closed : Bool
deriving DecidableEq, Repr

/-- `broadcast_log`, with CPython `for websocket in
active_log_connections` iteration semantics made explicit: the loop keeps
an index `i` into the (mutating) list; `active_log_connections.remove(websocket)`
inside the loop body shifts later elements left while the index still
advances.  Returns the connection list after the call together with the
ids of the sinks the entry was actually delivered to, in delivery
order. -/
def broadcast_log (conns : List Sink) (i : Nat) : List Sink × List Nat :=
  if h : i < conns.length then
    let ws := conns.get ⟨i, h⟩
    if ws.closed then
      broadcast_log (conns.erase ws) (i + 1)
    else
      let r := broadcast_log conns (i + 1)
      (r.1, ws.id :: r.2)
  else (conns, [])
termination_by conns.length - i
decreasing_by
  · have hm : conns.get ⟨i, h⟩ ∈ conns := conns.get_mem i h
    have := List.length_erase_of_mem hm
    omega
  · omega

/-- **C3 at its failing input.**  With subscriber list `[w0 (closed),
w1 (open)]`, broadcasting one entry removes `w0`, but the remove-inside-
iteration skips `w1`: the call returns with `w1` still subscribed and the
delivered-to list empty — the entry reaches no other sink, contradicting
the claim that every other sink still receives the event. -/
theorem broadcast_log_skips_after_prune :
    broadcast_log [⟨0, true⟩, ⟨1, false⟩] 0 = ([⟨1, false⟩], []) ∧
    ((broadcast_log [⟨0, true⟩, ⟨1, false⟩] 0).2 ≠ [1]) := by
  have hrun : broadcast_log [⟨0, true⟩, ⟨1, false⟩] 0 = ([⟨1, false⟩], []) := by
    rw [broadcast_log]
    simp [List.erase]
    rw [broadcast_log]
    simp
  refine ⟨hrun, ?_⟩
  rw [hrun]
  simp

/-! ## Log subscriber attach (`websocket_logs`, SSE `stream_logs`) -/

/-- `websocket_logs` attach path: `active_log_connections.append(websocket)`
followed by `log_event("New log client connected")` (which appends the
fresh entry `ec` to the buffer and broadcasts it).  Returns the connection
list after the attach, the buffer after the attach, and the entries that
were delivered to the newly attached sink `ws` during the attach call:
no buffered entry is ever sent to it, only the broadcast of `ec` can
reach it. -/
def websocket_logs_attach (conns : List Sink) (buf : List LogEntry)
    (ws : Sink) (ec : LogEntry) : List Sink × List LogEntry × List LogEntry :=
  ((broadcast_log (conns ++ [ws]) 0).1, log_event_buffer buf ec,
    if ws.id ∈ (broadcast_log (conns ++ [ws]) 0).2 then [ec] else [])

/-- SSE `stream_logs` generator initialisation:
`last_sent_index = len(log_buffer)`. -/
def sse_initial_index (log_buffer : List LogEntry) : Nat := log_buffer.length

/-- One iteration of the SSE generator's polling loop:
`if last_sent_index < len(log_buffer): new_logs =
log_buffer[last_sent_index:]; ...; last_sent_index = len(log_buffer)`.
Returns the entries yielded in this iteration and the updated index. -/
def sse_poll (log_buffer : List LogEntry) (last_sent_index : Nat) :
    List LogEntry × Nat :=
  if last_sent_index < log_buffer.length then
    (log_buffer.drop last_sent_index, log_buffer.length)
  else ([], last_sent_index)

theorem broadcast_log_all_open (conns : List Sink)
    (hopen : ∀ c ∈ conns, c.closed = false) (i : Nat) :
    broadcast_log conns i = (conns, (conns.drop i).map Sink.id) := by
  have key : ∀ n i, conns.length - i ≤ n →
      broadcast_log conns i = (conns, (conns.drop i).map Sink.id) := by
    intro n
    induction n with
    | zero =>
      intro i hi
      rw [broadcast_log, dif_neg (by omega), List.drop_eq_nil_of_le (by omega)]
      rfl
    | succ n ih =>
      intro i hi
      rw [broadcast_log]
      by_cases hlt : i < conns.length
      · rw [dif_pos hlt]
        have hcl : (conns.get ⟨i, hlt⟩).closed = false :=
          hopen _ (conns.get_mem i hlt)
        simp only [hcl, Bool.false_eq_true, if_false, ih (i + 1) (by omega)]
        refine congrArg (Prod.mk conns) ?_
        rw [List.drop_eq_getElem_cons hlt, List.map_cons]
        rfl
      · rw [dif_neg hlt, List.drop_eq_nil_of_le (by omega)]
        rfl
  exact key conns.length i (by omega)

/-- **C1 at a concrete input.**  With buffer `[e0]` and no prior
subscribers, attaching a fresh WebSocket log client delivers only the
just-published "New log client connected" entry to it — the buffered
entry `e0` is never replayed — and the SSE generator, initialised at the
current buffer length, replays nothing either.  This refutes the claim
that a new subscriber first receives every entry currently in the replay
buffer. -/
theorem logs_subscribe_no_replay_counterexample :
    ((websocket_logs_attach [] [⟨"t0", "hello", "FastAPI"⟩] ⟨1, false⟩
        ⟨"t1", "New log client connected", "FastAPI"⟩).2.2
      = [⟨"t1", "New log client connected", "FastAPI"⟩]) ∧
    ((⟨"t0", "hello", "FastAPI"⟩ : LogEntry) ∉
      (websocket_logs_attach [] [⟨"t0", "hello", "FastAPI"⟩] ⟨1, false⟩
        ⟨"t1", "New log client connected", "FastAPI"⟩).2.2) ∧
    ((sse_poll [⟨"t0", "hello", "FastAPI"⟩]
        (sse_initial_index [⟨"t0", "hello", "FastAPI"⟩])).1 = []) := by
  have hb : broadcast_log [(⟨1, false⟩ : Sink)] 0 = ([⟨1, false⟩], [1]) := by
    have := broadcast_log_all_open [(⟨1, false⟩ : Sink)] (by decide) 0
    simpa using this
  refine ⟨?_, ?_, by decide⟩
  · unfold websocket_logs_attach
    rw [show ([] : List Sink) ++ [(⟨1, false⟩ : Sink)] = [⟨1, false⟩] from rfl, hb]
    simp
  · unfold websocket_logs_attach
    rw [show ([] : List Sink) ++ [(⟨1, false⟩ : Sink)] = [⟨1, false⟩] from rfl, hb]
    simp

/-- **C1 amended.**  A newly attached log subscriber receives none of the
previously buffered entries: over the WebSocket path the only entry
delivered during attach is the freshly published connection-log entry,
and over the SSE path the generator starts at the current buffer length
so a later poll yields exactly the entries published after attach, in
order, each once (stated below the buffer capacity, where no eviction
interferes). -/
theorem logs_subscribe_no_replay_amended (conns : List Sink)
    (buf new : List LogEntry) (ws : Sink) (ec : LogEntry)
    (hopen : ∀ c ∈ conns, c.closed = false) (hws : ws.closed = false)
    (hlen : buf.length + new.length ≤ LOG_BUFFER_SIZE) :
    (websocket_logs_attach conns buf ws ec).2.2 = [ec] ∧
    sse_poll (publish_all buf new) (sse_initial_index buf)
      = (new, buf.length + new.length) := by
  constructor
  · unfold websocket_logs_attach
    have hall : ∀ c ∈ conns ++ [ws], c.closed = false := by
      intro c hc
      rcases List.mem_append.mp hc with h | h
      · exact hopen c h
      · rcases List.mem_singleton.mp h with rfl
        exact hws
    rw [broadcast_log_all_open (conns ++ [ws]) hall 0]
    have hmem : ws.id ∈ ((conns ++ [ws]).drop 0).map Sink.id := by
      simp
    simp [hmem]
  · have hpub : publish_all buf new = buf ++ new := by
      rw [publish_all_eq new buf (by omega)]
      rw [Nat.sub_eq_zero_of_le (by omega), List.drop_zero]
    rw [hpub]
    unfold sse_poll sse_initial_index
    rcases new with _ | ⟨e, new'⟩
    · simp
    · have hlt : buf.length < (buf ++ e :: new').length := by
        simp only [List.length_append, List.length_cons]
        omega
      rw [if_pos hlt, List.drop_left]
      simp only [List.length_append, List.length_cons]

/-- Closed witness for the hypotheses of
`logs_subscribe_no_replay_amended` at a concrete attach. -/
theorem logs_subscribe_no_replay_amended_witness :
    ((∀ c ∈ ([] : List Sink), c.closed = false) ∧
      (⟨1, false⟩ : Sink).closed = false ∧
      ([(⟨"t0", "m0", "s0"⟩ : LogEntry)].length
        + [(⟨"t2", "m2", "s2"⟩ : LogEntry)].length ≤ LOG_BUFFER_SIZE)) ∧
    ((websocket_logs_attach [] [⟨"t0", "m0", "s0"⟩] ⟨1, false⟩
        ⟨"t1", "m1", "s1"⟩).2.2 = [⟨"t1", "m1", "s1"⟩] ∧
      sse_poll (publish_all [⟨"t0", "m0", "s0"⟩] [⟨"t2", "m2", "s2"⟩])
          (sse_initial_index [⟨"t0", "m0", "s0"⟩])
        = ([⟨"t2", "m2", "s2"⟩], 1 + 1)) :=
  ⟨⟨by decide, by decide, by decide⟩,
    logs_subscribe_no_replay_amended [] [⟨"t0", "m0", "s0"⟩]
      [⟨"t2", "m2", "s2"⟩] ⟨1, false⟩ ⟨"t1", "m1", "s1"⟩
      (by decide) (by decide) (by decide)⟩

/-! ## Streaming-chat demultiplexer
(`ns_grpc_service_api.stream_chat_to_websocket`) -/

/-- One record of the `origin` list; `i.get("tool")` may be absent. -/
structure OriginRec where
  tool : Option String
deriving DecidableEq, Repr

/-- The `response` sub-dict of an upstream message.  `type`, `origin` and
`chat_context` are read with `.get` (absence tolerated); `text` is read
with direct indexing on the AI path (absence raises `KeyError`). -/
structure RespPayload where
  rtype : Option MsgType
  text : Option String
  origin : Option (List OriginRec)
  chat_context : Option StrDict
deriving DecidableEq, Repr

/-- A raw upstream message dict; `response = none` models a message
lacking the `"response"` key. -/
structure RawMsg where
  response : Option RespPayload
deriving DecidableEq, Repr

/-- The observable actions of `stream_chat_to_websocket`, in program
order: the two per-message broadcaster events, the WebSocket send of the
final answer, and the two trailing info log events. -/
inductive Action where
  | otraceLog (otrace : Option (List (Option String)))
  | internalChat (otrace : Option (List (Option String))) (text : Option String)
  | send (msg : UserMessage)
  | sentLog
  | finishedLog
deriving DecidableEq, Repr

/-- Whether an action is a WebSocket send to the requesting chat client. -/
def Action.isSend : Action → Bool
  | .send _ => true
  | _ => false

/-- Whether an action is a per-message trace/log broadcaster event. -/
def Action.isTrace : Action → Bool
  | .otraceLog _ => true
  | .internalChat _ _ => true
  | _ => false

/-- The loop-carried locals of `stream_chat_to_websocket`:
`final_response`, `internal_chat`, `otrace` (all initialised to `None`),
plus `result_dict` of the last processed message (`none` models the name
being still unbound). -/
structure LoopSt where
  final_response : Option String
  internal_chat : Option String
  otrace : Option (List (Option String))
  last_msg : Option RawMsg
deriving DecidableEq, Repr

def initLoopSt : LoopSt := ⟨none, none, none, none⟩

/-- Processing of one upstream message inside the `async for` loop.
`none` models a raised exception: a message without `"response"` hits the
unguarded `result_dict["response"].get("type")` test (`KeyError`), and an
AI-typed message without `"text"` hits `result_dict["response"]["text"]`.
On success returns the updated state and the two broadcaster events
emitted for the message. -/
def stepMsg (st : LoopSt) (m : RawMsg) : Option (LoopSt × List Action) :=
  match m.response with
  | none => none
  | some r =>
    match (if r.rtype = some MsgType.AI then
             match r.text with
             | some t => some (some t)
             | none => none
           else some st.final_response) with
    | none => none
    | some fr =>
      let ot := (r.origin.getD []).map OriginRec.tool
      let ic := if r.rtype = some MsgType.AGENT
                  ∨ r.rtype = some MsgType.AGENT_TOOL_RESULT
                then some (r.text.getD "") else st.internal_chat
      some ({ final_response := fr, internal_chat := ic,
              otrace := some ot, last_msg := some m },
            [Action.otraceLog (some ot), Action.internalChat (some ot) ic])

/-- Result of the message loop: normal completion with the final state
and the emitted actions, or an exception with the actions emitted before
it was raised. -/
inductive LoopRes where
  | ok (st : LoopSt) (acts : List Action)
  | err (acts : List Action)
deriving DecidableEq, Repr

/-- The `async for` loop over the delivered upstream messages. -/
def runLoop (st : LoopSt) : List RawMsg → LoopRes
  | [] => .ok st []
  | m :: ms =>
    match stepMsg st m with
    | none => .err []
    | some (st', as) =>
      match runLoop st' ms with
      | .ok st'' as' => .ok st'' (as ++ as')
      | .err as' => .err (as ++ as')

/-- Python truthiness of the `final_response` string
(`if final_response:`). -/
def truthyStr : Option String → Option String
  | some t => if t = "" then none else some t
  | none => none

/-- `NsGrpcServiceApi.get_chat_context`:
`result_dict.get("response", {}).get("chat_context", {})`. -/
def get_chat_context (m : RawMsg) : StrDict :=
  match m.response with
  | some r => r.chat_context.getD []
  | none => []

/-- The outcome of one `stream_chat_to_websocket` call: the actions in
program order, the stored `self.chat_context` after the call, and whether
the surrounding `except Exception` caught an exception. -/
structure TurnOutcome where
  transcript : List Action
  chat_context : StrDict
  errorCaught : Bool
deriving DecidableEq, Repr

/-- `stream_chat_to_websocket`, given the stored context `ctx0`, the
upstream messages actually yielded before the stream ended, and whether
the stream ended in a transport error instead of normal completion.
Any exception is caught by the surrounding `except Exception`, which only
logs it: the context is left unchanged and nothing further is sent. -/
def stream_chat_to_websocket (ctx0 : StrDict) (delivered : List RawMsg)
    (streamFails : Bool) : TurnOutcome :=
  match runLoop initLoopSt delivered with
  | .err as => ⟨as, ctx0, true⟩
  | .ok st as =>
    if streamFails then ⟨as, ctx0, true⟩
    else
      let sendPart : List Action :=
        match truthyStr st.final_response with
        | some t => [Action.send ⟨MsgType.AI, t⟩, Action.sentLog]
        | none => []
      match st.last_msg with
      | none => ⟨as ++ sendPart, ctx0, true⟩
      | some m => ⟨as ++ sendPart ++ [Action.finishedLog], get_chat_context m, false⟩

/-- A message that does not raise inside the loop: it has a `response`
and, when AI-typed, a `text`. -/
def wfMsg (m : RawMsg) : Bool :=
  match m.response with
  | none => false
  | some r => if r.rtype = some MsgType.AI then r.text.isSome else true

/-- Whether a message is AI-typed. -/
def RawMsg.aiTyped (m : RawMsg) : Bool :=
  match m.response with
  | some r => r.rtype = some MsgType.AI
  | none => false

/-- The effect of the loop on `final_response`, as a pure fold. -/
def finalUpd (acc : Option String) (m : RawMsg) : Option String :=
  match m.response with
  | some r => if r.rtype = some MsgType.AI then r.text else acc
  | none => acc

/-- The actions carried by a loop result, completed or aborted. -/
def LoopRes.acts : LoopRes → List Action
  | .ok _ as => as
  | .err as => as

theorem stepMsg_acts {st : LoopSt} {m : RawMsg} {st' : LoopSt}
    {as : List Action} (h : stepMsg st m = some (st', as)) :
    ∃ ot ic, as = [Action.otraceLog ot, Action.internalChat ot ic] := by
  unfold stepMsg at h
  split at h
  · exact absurd h (by simp)
  · split at h
    · exact absurd h (by simp)
    · simp only [Option.some.injEq, Prod.mk.injEq] at h
      exact ⟨_, _, h.2.symm⟩

theorem runLoop_acts_noSend (msgs : List RawMsg) :
    ∀ st, ∀ a ∈ (runLoop st msgs).acts, a.isSend = false := by
  induction msgs with
  | nil =>
    intro st a ha
    simp [runLoop, LoopRes.acts] at ha
  | cons m ms ih =>
    intro st a ha
    rcases hs : stepMsg st m with _ | ⟨st1, as1⟩
    · simp only [runLoop, hs, LoopRes.acts] at ha
      simp at ha
    · obtain ⟨ot, ic, has1⟩ := stepMsg_acts hs
      have hsplit : (runLoop st (m :: ms)).acts = as1 ++ (runLoop st1 ms).acts := by
        simp only [runLoop, hs]
        rcases hr : runLoop st1 ms with ⟨st2, as2⟩ | as2 <;> rfl
      rw [hsplit] at ha
      rcases List.mem_append.mp ha with h1 | h1
      · subst has1
        simp only [List.mem_cons, List.not_mem_nil, or_false] at h1
        rcases h1 with rfl | rfl <;> rfl
      · exact ih st1 a h1

/-- The last message of a list, defaulting to a previous value — the
value of the `result_dict` name after a loop over the list. -/
def lastOr (msgs : List RawMsg) (d : Option RawMsg) : Option RawMsg :=
  match msgs.getLast? with
  | some m => some m
  | none => d

theorem lastOr_cons (m : RawMsg) (ms : List RawMsg) (d : Option RawMsg) :
    lastOr (m :: ms) d = lastOr ms (some m) := by
  cases ms with
  | nil => rfl
  | cons m2 ms' =>
    unfold lastOr
    rw [List.getLast?_cons_cons]
    cases h : (m2 :: ms').getLast? with
    | some x => rfl
    | none => exact absurd h (by simp)

theorem stepMsg_wf (st : LoopSt) (m : RawMsg) (h : wfMsg m = true) :
    ∃ st1 as1, stepMsg st m = some (st1, as1) ∧
      st1.final_response = finalUpd st.final_response m ∧
      st1.last_msg = some m := by
  cases hm : m.response with
  | none => simp [wfMsg, hm] at h
  | some r =>
    by_cases hai : r.rtype = some MsgType.AI
    · cases ht : r.text with
      | none => simp [wfMsg, hm, hai, ht] at h
      | some t =>
        refine ⟨⟨some t, st.internal_chat,
            some ((r.origin.getD []).map OriginRec.tool), some m⟩,
          [Action.otraceLog (some ((r.origin.getD []).map OriginRec.tool)),
            Action.internalChat (some ((r.origin.getD []).map OriginRec.tool))
              st.internal_chat], ?_, ?_, rfl⟩
        · simp [stepMsg, hm, hai, ht]
        · simp [finalUpd, hm, hai, ht]
    · refine ⟨⟨st.final_response,
          if r.rtype = some MsgType.AGENT ∨ r.rtype = some MsgType.AGENT_TOOL_RESULT
            then some (r.text.getD "") else st.internal_chat,
          some ((r.origin.getD []).map OriginRec.tool), some m⟩,
        [Action.otraceLog (some ((r.origin.getD []).map OriginRec.tool)),
          Action.internalChat (some ((r.origin.getD []).map OriginRec.tool))
            (if r.rtype = some MsgType.AGENT ∨ r.rtype = some MsgType.AGENT_TOOL_RESULT
              then some (r.text.getD "") else st.internal_chat)], ?_, ?_, rfl⟩
      · simp [stepMsg, hm, hai]
      · simp [finalUpd, hm, hai]

theorem runLoop_wf (msgs : List RawMsg) :
    ∀ st, (∀ m ∈ msgs, wfMsg m = true) →
      ∃ st' as, runLoop st msgs = .ok st' as ∧
        st'.final_response = msgs.foldl finalUpd st.final_response ∧
        st'.last_msg = lastOr msgs st.last_msg := by
  induction msgs with
  | nil =>
    intro st _
    exact ⟨st, [], rfl, rfl, rfl⟩
  | cons m ms ih =>
    intro st hwf
    obtain ⟨st1, as1, hs, hf1, hl1⟩ :=
      stepMsg_wf st m (hwf m (List.mem_cons_self m ms))
    obtain ⟨st2, as2, hr, hf2, hl2⟩ :=
      ih st1 (fun x hx => hwf x (List.mem_cons_of_mem m hx))
    refine ⟨st2, as1 ++ as2, ?_, ?_, ?_⟩
    · simp only [runLoop, hs, hr]
    · rw [hf2, List.foldl_cons, hf1]
    · rw [hl2, hl1, lastOr_cons]

theorem finalUpd_of_nonAI {m : RawMsg} (h : m.aiTyped = false)
    (a : Option String) : finalUpd a m = a := by
  cases hm : m.response with
  | none => simp [finalUpd, hm]
  | some r =>
    have : ¬ r.rtype = some MsgType.AI := by
      simpa [RawMsg.aiTyped, hm] using h
    simp [finalUpd, hm, this]

theorem foldl_finalUpd_of_nonAI (msgs : List RawMsg) :
    ∀ a : Option String, (∀ m ∈ msgs, m.aiTyped = false) →
      msgs.foldl finalUpd a = a := by
  induction msgs with
  | nil => intro a _; rfl
  | cons m ms ih =>
    intro a h
    rw [List.foldl_cons, finalUpd_of_nonAI (h m (List.mem_cons_self m ms)),
      ih a (fun x hx => h x (List.mem_cons_of_mem m hx))]

theorem formulate_ctx_key (ui : String) (sly filt : Option StrDict)
    (d : StrDict) :
    (formulate_chat_request ui sly (some d) filt).chat_context
      = if d = [] then none else some d := by
  cases d with
  | nil => simp [formulate_chat_request]
  | cons p d' => simp [formulate_chat_request]

/-- **C4.**  For a turn whose upstream sequence contains exactly two
AI-typed messages, with texts "A" then "B", all other messages non-AI and
well-formed, and which completes normally: exactly one final-answer chat
message is sent, it carries text "B" (overwrite, not concatenation), and
it is sent only after the stream is exhausted, i.e. after every
trace/log broadcaster event of the turn. -/
theorem final_answer_overwrite (ctx0 : StrDict) (p q r : List RawMsg)
    (mA mB : RawMsg) (rA rB : RespPayload)
    (hA : mA.response = some rA) (hAt : rA.rtype = some MsgType.AI)
    (hAx : rA.text = some "A")
    (hB : mB.response = some rB) (hBt : rB.rtype = some MsgType.AI)
    (hBx : rB.text = some "B")
    (hp : ∀ m ∈ p, wfMsg m = true ∧ m.aiTyped = false)
    (hq : ∀ m ∈ q, wfMsg m = true ∧ m.aiTyped = false)
    (hr : ∀ m ∈ r, wfMsg m = true ∧ m.aiTyped = false) :
    ∃ pre post,
      (stream_chat_to_websocket ctx0 (p ++ mA :: (q ++ mB :: r)) false).transcript
        = pre ++ Action.send ⟨MsgType.AI, "B"⟩ :: post ∧
      (∀ a ∈ pre, a.isSend = false) ∧
      (∀ a ∈ post, a.isSend = false ∧ a.isTrace = false) := by
  have hwfA : wfMsg mA = true := by simp [wfMsg, hA, hAt, hAx]
  have hwfB : wfMsg mB = true := by simp [wfMsg, hB, hBt, hBx]
  have hwf : ∀ m ∈ p ++ mA :: (q ++ mB :: r), wfMsg m = true := by
    intro m hm
    rcases List.mem_append.mp hm with h | h
    · exact (hp m h).1
    · rcases List.mem_cons.mp h with rfl | h
      · exact hwfA
      · rcases List.mem_append.mp h with h | h
        · exact (hq m h).1
        · rcases List.mem_cons.mp h with rfl | h
          · exact hwfB
          · exact (hr m h).1
  obtain ⟨st', as, hrun, hfinal, hlast⟩ :=
    runLoop_wf (p ++ mA :: (q ++ mB :: r)) initLoopSt hwf
  have hfB : st'.final_response = some "B" := by
    rw [hfinal, List.foldl_append,
      foldl_finalUpd_of_nonAI p _ (fun m hm => (hp m hm).2), List.foldl_cons]
    have h1 : finalUpd initLoopSt.final_response mA = some "A" := by
      simp [finalUpd, initLoopSt, hA, hAt, hAx]
    rw [h1, List.foldl_append,
      foldl_finalUpd_of_nonAI q _ (fun m hm => (hq m hm).2), List.foldl_cons]
    have h2 : finalUpd (some "A") mB = some "B" := by simp [finalUpd, hB, hBt, hBx]
    rw [h2, foldl_finalUpd_of_nonAI r _ (fun m hm => (hr m hm).2)]
  have hlastSome : ∃ mL, st'.last_msg = some mL := by
    rw [hlast]
    unfold lastOr
    cases h : (p ++ mA :: (q ++ mB :: r)).getLast? with
    | some x => exact ⟨x, rfl⟩
    | none =>
      rw [List.getLast?_eq_none_iff] at h
      exact absurd h (by simp)
  obtain ⟨mL, hmL⟩ := hlastSome
  refine ⟨as, [Action.sentLog, Action.finishedLog], ?_, ?_, ?_⟩
  · have htr : truthyStr st'.final_response = some "B" := by
      rw [hfB]; simp [truthyStr]
    simp [stream_chat_to_websocket, hrun, htr, hmL]
  · intro a ha
    have := runLoop_acts_noSend (p ++ mA :: (q ++ mB :: r)) initLoopSt a
    rw [hrun] at this
    exact this ha
  · intro a ha
    rcases List.mem_cons.mp ha with rfl | ha
    · exact ⟨rfl, rfl⟩
    · rcases List.mem_cons.mp ha with rfl | ha
      · exact ⟨rfl, rfl⟩
      · exact absurd ha (by simp)

/-- Closed witness for `final_answer_overwrite`: a two-message stream
with AI texts "A" then "B". -/
theorem final_answer_overwrite_witness :
    ((⟨some ⟨some MsgType.AI, some "A", none, none⟩⟩ : RawMsg).response
        = some ⟨some MsgType.AI, some "A", none, none⟩ ∧
      (⟨some ⟨some MsgType.AI, some "B", none, none⟩⟩ : RawMsg).response
        = some ⟨some MsgType.AI, some "B", none, none⟩) ∧
    (∃ pre post,
      (stream_chat_to_websocket []
          ([] ++ (⟨some ⟨some MsgType.AI, some "A", none, none⟩⟩ : RawMsg) ::
            ([] ++ (⟨some ⟨some MsgType.AI, some "B", none, none⟩⟩ : RawMsg) :: []))
          false).transcript
        = pre ++ Action.send ⟨MsgType.AI, "B"⟩ :: post ∧
      (∀ a ∈ pre, a.isSend = false) ∧
      (∀ a ∈ post, a.isSend = false ∧ a.isTrace = false)) :=
  ⟨⟨rfl, rfl⟩,
    final_answer_overwrite [] [] [] []
      ⟨some ⟨some MsgType.AI, some "A", none, none⟩⟩
      ⟨some ⟨some MsgType.AI, some "B", none, none⟩⟩
      ⟨some MsgType.AI, some "A", none, none⟩
      ⟨some MsgType.AI, some "B", none, none⟩
      rfl rfl rfl rfl rfl rfl
      (by intro m hm; exact absurd hm (by simp))
      (by intro m hm; exact absurd hm (by simp))
      (by intro m hm; exact absurd hm (by simp))⟩

/-- **C5 at a concrete input.**  A two-message turn whose first message
carries `chat_context = {"k": "v"}` and whose final message carries none:
the code stores the *final* message's (absent) context, i.e. `{}`, not
the last-seen context from any message of the turn — refuting the
claim. -/
theorem chat_context_last_seen_counterexample :
    (stream_chat_to_websocket [("a", "b")]
        [⟨some ⟨some MsgType.OTHER, some "x", none, some [("k", "v")]⟩⟩,
          ⟨some ⟨some MsgType.OTHER, some "y", none, none⟩⟩] false).chat_context
      = [] ∧
    ([] : StrDict) ≠ [("k", "v")] := by
  constructor
  · rfl
  · decide

/-- **C5 amended.**  After a normally completed turn the stored session
context equals the `chat_context` carried by the *final* message of the
turn's upstream sequence (empty when that message carries none), and the
next request built from the stored value carries a `chat_context` key iff
the stored value is non-empty, with exactly the stored value. -/
theorem chat_context_from_last_message (ctx0 : StrDict) (ms : List RawMsg)
    (mlast : RawMsg) (hwf : ∀ m ∈ ms ++ [mlast], wfMsg m = true) :
    (stream_chat_to_websocket ctx0 (ms ++ [mlast]) false).chat_context
      = get_chat_context mlast ∧
    (∀ (ui : String) (sly filt : Option StrDict),
      (formulate_chat_request ui sly
          (some ((stream_chat_to_websocket ctx0 (ms ++ [mlast]) false).chat_context))
          filt).chat_context
        = if get_chat_context mlast = [] then none
          else some (get_chat_context mlast)) := by
  obtain ⟨st', as, hrun, _, hlast⟩ := runLoop_wf (ms ++ [mlast]) initLoopSt hwf
  have hlastEq : st'.last_msg = some mlast := by
    rw [hlast]
    unfold lastOr
    rw [List.getLast?_concat]
  have hctx : (stream_chat_to_websocket ctx0 (ms ++ [mlast]) false).chat_context
      = get_chat_context mlast := by
    simp [stream_chat_to_websocket, hrun, hlastEq]
  refine ⟨hctx, ?_⟩
  intro ui sly filt
  rw [hctx, formulate_ctx_key]

/-- Closed witness for `chat_context_from_last_message`. -/
theorem chat_context_from_last_message_witness :
    (∀ m ∈ ([] : List RawMsg) ++
        [(⟨some ⟨some MsgType.OTHER, some "x", none, some [("k", "v")]⟩⟩ : RawMsg)],
      wfMsg m = true) ∧
    ((stream_chat_to_websocket []
        ([] ++ [(⟨some ⟨some MsgType.OTHER, some "x", none, some [("k", "v")]⟩⟩ : RawMsg)])
        false).chat_context
      = get_chat_context ⟨some ⟨some MsgType.OTHER, some "x", none, some [("k", "v")]⟩⟩ ∧
    (∀ (ui : String) (sly filt : Option StrDict),
      (formulate_chat_request ui sly
          (some ((stream_chat_to_websocket []
            ([] ++ [(⟨some ⟨some MsgType.OTHER, some "x", none, some [("k", "v")]⟩⟩ : RawMsg)])
            false).chat_context))
          filt).chat_context
        = if get_chat_context
              ⟨some ⟨some MsgType.OTHER, some "x", none, some [("k", "v")]⟩⟩ = []
          then none
          else some (get_chat_context
              ⟨some ⟨some MsgType.OTHER, some "x", none, some [("k", "v")]⟩⟩))) :=
  ⟨by decide,
    chat_context_from_last_message [] []
      ⟨some ⟨some MsgType.OTHER, some "x", none, some [("k", "v")]⟩⟩ (by decide)⟩

/-- **C7 at a concrete input.**  When the upstream call fails immediately
(connect refused: no message delivered, stream errors), the requesting
chat connection receives nothing at all — no error event is ever sent,
the exception is merely caught and logged — refuting the claim that a
single user-visible error event reaches the client. -/
theorem upstream_failure_no_event_counterexample :
    (stream_chat_to_websocket [] [] true).transcript = [] ∧
    (stream_chat_to_websocket [] [] true).errorCaught = true := by
  constructor <;> rfl

/-- **C7 amended.**  For every turn whose upstream streaming call fails,
the handler catches the exception and only logs it server-side: no
message of any kind is sent to the requesting chat connection for that
turn (the already-emitted broadcaster events are kept), and the stored
context is left unchanged. -/
theorem upstream_failure_silent (ctx0 : StrDict) (delivered : List RawMsg) :
    (stream_chat_to_websocket ctx0 delivered true).transcript.filter Action.isSend
      = [] ∧
    (stream_chat_to_websocket ctx0 delivered true).errorCaught = true ∧
    (stream_chat_to_websocket ctx0 delivered true).chat_context = ctx0 := by
  have hns := runLoop_acts_noSend delivered initLoopSt
  cases hrun : runLoop initLoopSt delivered with
  | ok st as =>
    rw [hrun] at hns
    have hfil : as.filter Action.isSend = [] := by
      rw [List.filter_eq_nil_iff]
      intro a ha
      simp [hns a ha]
    have hout : stream_chat_to_websocket ctx0 delivered true = ⟨as, ctx0, true⟩ := by
      simp [stream_chat_to_websocket, hrun]
    rw [hout]
    exact ⟨hfil, rfl, rfl⟩
  | err as =>
    rw [hrun] at hns
    have hfil : as.filter Action.isSend = [] := by
      rw [List.filter_eq_nil_iff]
      intro a ha
      simp [hns a ha]
    have hout : stream_chat_to_websocket ctx0 delivered true = ⟨as, ctx0, true⟩ := by
      simp [stream_chat_to_websocket, hrun]
    rw [hout]
    exact ⟨hfil, rfl, rfl⟩

/-- **C8.**  For any loop state and any message typed AGENT or
AGENT_TOOL_RESULT whose origin list is `[{tool: x}, {tool: y}]`, the two
broadcaster events emitted for the message carry the origin trace
`[x, y]` — the tool names in origin-list order. -/
theorem origin_trace_order (st : LoopSt) (m : RawMsg) (r : RespPayload)
    (x y : String) (hm : m.response = some r)
    (ht : r.rtype = some MsgType.AGENT ∨ r.rtype = some MsgType.AGENT_TOOL_RESULT)
    (ho : r.origin = some [⟨some x⟩, ⟨some y⟩]) :
    stepMsg st m = some
      (⟨st.final_response, some (r.text.getD ""), some [some x, some y], some m⟩,
        [Action.otraceLog (some [some x, some y]),
          Action.internalChat (some [some x, some y]) (some (r.text.getD ""))]) := by
  rcases ht with h | h <;> simp [stepMsg, hm, h, ho]

/-- Closed witness for `origin_trace_order` at an AGENT message with
origin `[{tool: "x"}, {tool: "y"}]`. -/
theorem origin_trace_order_witness :
    ((⟨some ⟨some MsgType.AGENT, some "routing",
          some [⟨some "x"⟩, ⟨some "y"⟩], none⟩⟩ : RawMsg).response
        = some ⟨some MsgType.AGENT, some "routing",
            some [⟨some "x"⟩, ⟨some "y"⟩], none⟩) ∧
    stepMsg initLoopSt
        ⟨some ⟨some MsgType.AGENT, some "routing",
          some [⟨some "x"⟩, ⟨some "y"⟩], none⟩⟩
      = some
        (⟨initLoopSt.final_response, some "routing",
            some [some "x", some "y"],
            some ⟨some ⟨some MsgType.AGENT, some "routing",
              some [⟨some "x"⟩, ⟨some "y"⟩], none⟩⟩⟩,
          [Action.otraceLog (some [some "x", some "y"]),
            Action.internalChat (some [some "x", some "y"]) (some "routing")]) :=
  ⟨rfl,
    origin_trace_order initLoopSt
      ⟨some ⟨some MsgType.AGENT, some "routing",
        some [⟨some "x"⟩, ⟨some "y"⟩], none⟩⟩
      ⟨some MsgType.AGENT, some "routing", some [⟨some "x"⟩, ⟨some "y"⟩], none⟩
      "x" "y" rfl (Or.inl rfl) rfl⟩

/-- **C9 at its failing input.**  A stream delivering a message without
the `"response"` key followed by a well-formed AGENT message: the
unguarded `result_dict["response"].get("type")` raises `KeyError`, the
surrounding handler catches it, and the whole turn is aborted — no
diagnostic log line is emitted for either message and the second message
is never processed (by contrast the same AGENT message alone does emit
events).  This refutes the claim that a malformed message degrades to a
log line with the rest of the stream still processed. -/
theorem malformed_message_aborts_turn :
    stream_chat_to_websocket []
        [⟨none⟩,
          ⟨some ⟨some MsgType.AGENT, some "t", some [⟨some "Router"⟩], none⟩⟩]
        false
      = ⟨[], [], true⟩ ∧
    (stream_chat_to_websocket []
        [⟨some ⟨some MsgType.AGENT, some "t", some [⟨some "Router"⟩], none⟩⟩]
        false).transcript
      ≠ [] := by
  constructor
  · rfl
  · intro h
    simp only [stream_chat_to_websocket, runLoop, stepMsg] at h
    simp at h

end Nsflow
